import Mathlib

/-
Verification of the AutoPyPack (AutoPylot) dependency-installer CLI.

The embedding follows `src/build/lib/AutoPylot/cli.py`.  The functions
`scan_imports`, `is_module_available`, `install_package` and `load_mappings`
live in the `core` module, which is not part of the repository sources; those
pieces are modelled from the specification (their doc comments say so).
The environment of the running interpreter (builtin module names, `sys.path`,
filesystem existence, import-resolution probe, mapping table, per-package
install outcome) is abstracted into an explicit `Env` record, so every
function of the CLI becomes a pure function of `Env` and of the scanned
files of the project.
-/

namespace AutoPylot

/-- The ambient interpreter environment that `cli.py` consults:
`builtinModules` models `sys.builtin_module_names`, `sysPath` models
`sys.path`, `pathExists` models `os.path.exists`, `available` models
`core.is_module_available` (the import-resolution probe), `mappings` models
the table returned by `core.load_mappings`, and `installOk` models whether
the package manager succeeds on a given package name. -/
structure Env where
  builtinModules : List String
  sysPath : List String
  pathExists : String → Bool
  available : String → Bool
  mappings : List (String × String)
  installOk : String → Bool

/-- The Python `str.lower()` method on the character sequence (the project basenames
in scope are ASCII, where `Char.toLower` agrees with Python). -/
def strLower (s : String) : String := ⟨s.data.map Char.toLower⟩

/-- The Python `str.endswith(suffix)` method on the character sequence. -/
def strEndsWith (s suffix : String) : Bool := suffix.data.isSuffixOf s.data

/-- Modelled from the spec (§4.2): one import statement of a source file,
as recognized by `core.scan_imports`, which is not in the repository
sources.  A dotted module path is a nonempty list of segments, encoded as
head segment plus remaining segments. -/
inductive ImportStmt where
  | plainImport (first : String) (rest : List String)
  | fromImport (first : String) (rest : List String) (names : List String)
deriving DecidableEq, Repr

/-- The top-level package segment of the module path of an import statement. -/
def topLevel : ImportStmt → String
  | .plainImport first _ => first
  | .fromImport first _ _ => first

/-- Modelled from the spec (§4.2): `core.scan_imports` returns the set of
top-level import names referenced by one file, for both plain-import and
from-import forms.  Sets are lists without duplicates, in first-seen order. -/
def scan_imports (stmts : List ImportStmt) : List String :=
  stmts.foldl (fun acc s => if topLevel s ∈ acc then acc else acc ++ [topLevel s]) []

/-- The result of scanning one Python file: either its import statements, or
the message of the exception the scan raised. -/
abbrev PyFile := Except String (List ImportStmt)

/-- Union the import names of one file into the accumulating project-wide set
(`all_imports.update(imports)` in `collect_all_imports`). -/
def addImports (acc : List String) (imps : List String) : List String :=
  imps.foldl (fun a m => if m ∈ a then a else a ++ [m]) acc

/-- `collect_all_imports` of `cli.py`: scan every file, union the import
names; a file whose scan raises contributes nothing and scanning continues. -/
def collect_all_imports (files : List PyFile) : List String :=
  files.foldl
    (fun acc f =>
      match f with
      | .ok stmts => addImports acc (scan_imports stmts)
      | .error _ => acc)
    []

/-- The error messages printed by `collect_all_imports`, one per file whose
scan raised, in file order. -/
def scanErrors (files : List PyFile) : List String :=
  files.filterMap
    (fun f =>
      match f with
      | .ok _ => none
      | .error e => some e)

/-- The hardcoded list `stdlib_modules` of `is_stdlib_module` in `cli.py`,
transcribed verbatim. -/
def stdlib_modules : List String :=
  ["os", "sys", "re", "math", "random", "datetime", "time", "json", "pickle",
   "collections", "functools", "itertools", "typing", "pathlib", "io", "argparse",
   "logging", "threading", "multiprocessing", "subprocess", "tempfile", "shutil",
   "glob", "fnmatch", "socket", "email", "mimetypes", "base64", "hashlib", "hmac",
   "uuid", "unittest", "ast", "inspect", "importlib", "signal", "asyncio", "csv",
   "xml", "html", "urllib", "http", "ftplib", "ssl", "zlib", "zipfile", "tarfile",
   "platform", "traceback", "gc", "operator", "contextlib", "copy", "struct",
   "configparser", "warnings", "statistics", "decimal", "fractions", "enum", "array",
   "bisect", "heapq", "queue", "weakref", "abc", "calendar", "tkinter", "turtle"]

/-- `is_stdlib_module` of `cli.py`: builtin-module check first, then the
`sys.path` scan that skips `site-packages` and `dist-packages` entries and
looks for a directory `path/module_name` or file `path/module_name.py`,
then the hardcoded list. -/
def is_stdlib_module (env : Env) (module_name : String) : Bool :=
  if module_name ∈ env.builtinModules then
    true
  else if env.sysPath.any
      (fun path =>
        if strEndsWith path "site-packages" || strEndsWith path "dist-packages" then
          false
        else
          env.pathExists (path ++ "/" ++ module_name) ||
            env.pathExists (path ++ "/" ++ module_name ++ ".py")) then
    true
  else
    decide (module_name ∈ stdlib_modules)

/-- The list `internal_modules` of `install_missing_packages` in `cli.py`:
the module identifiers of the tool itself plus the lowercased project basename. -/
def internal_modules (project_name : String) : List String :=
  ["autopylot", "AutoPylot", "core", "cli", strLower project_name]

/-- `mappings.get(module_name, module_name)`: first table entry for the key
if present, else the default. -/
def mapGet (mappings : List (String × String)) (k dflt : String) : String :=
  match mappings.find? (fun p => p.fst == k) with
  | some p => p.snd
  | none => dflt

/-- The per-module test of the loop of `install_missing_packages`: not
internal, not standard-library, not already importable. -/
def should_install (env : Env) (project_name : String) (m : String) : Bool :=
  !(decide (m ∈ internal_modules project_name) || is_stdlib_module env m) &&
    !(env.available m)

/-- The list `missing_packages` built by `install_missing_packages`:
pairs `(module_name, mappings.get(module_name, module_name))` for every
collected import name that is neither internal, nor standard-library, nor
already available. -/
def missing_packages (env : Env) (project_name : String) (files : List PyFile) :
    List (String × String) :=
  ((collect_all_imports files).filter (should_install env project_name)).map
    (fun m => (m, mapGet env.mappings m m))

/-- One console message of a run, abstracted from the `print` calls of
`install_missing_packages` and of the installer. -/
inductive Msg where
  | noImports
  | foundImports (n : Nat)
  | allInstalled
  | foundMissing (n : Nat)
  | installCall (pkg : String)
  | installSuccess (pkg : String)
  | installFailure (pkg : String)
  | complete
deriving DecidableEq, Repr

/-- Modelled from the spec (§4.6): `core.install_package` is not in the
repository sources; it invokes the package manager on the package name and
catches and reports failure per package, never aborting the batch. -/
def install_package (env : Env) (pkg : String) : List Msg :=
  Msg.installCall pkg ::
    (if env.installOk pkg then [Msg.installSuccess pkg] else [Msg.installFailure pkg])

/-- `install_missing_packages` of `cli.py` as the trace of messages of one
run: early return when no imports were collected, early success report when
nothing is missing, otherwise one installer invocation per missing pair
followed by the unconditional completion message. -/
def install_missing_packages (env : Env) (project_name : String)
    (files : List PyFile) : List Msg :=
  let all_imports := collect_all_imports files
  if all_imports.isEmpty then
    [Msg.noImports]
  else
    let missing := missing_packages env project_name files
    if missing.isEmpty then
      [Msg.foundImports all_imports.length, Msg.allInstalled]
    else
      Msg.foundImports all_imports.length ::
        Msg.foundMissing missing.length ::
          missing.foldr (fun mp acc => install_package env mp.snd ++ acc)
            [Msg.complete]

/-- The package names the installer was invoked with during a run, in order. -/
def installCalls (msgs : List Msg) : List String :=
  msgs.filterMap
    (fun m =>
      match m with
      | .installCall pkg => some pkg
      | _ => none)

/-- The environment after a first run whose installations all succeeded and
that is otherwise unchanged: every import name of the missing
set is now importable, and nothing else moved. -/
def envAfter (env : Env) (project_name : String) (files : List PyFile) : Env :=
  { env with
    available := fun m =>
      env.available m ||
        (missing_packages env project_name files).any (fun mp => mp.fst == m) }

/-- An environment with nothing installed, nothing on `sys.path`, no
builtins and an empty mapping table, where every installation succeeds. -/
def bareEnv : Env :=
  { builtinModules := []
    sysPath := []
    pathExists := fun _ => false
    available := fun _ => false
    mappings := []
    installOk := fun _ => true }

/-- The project of the end-to-end example of the spec: one file importing
`requests`, `os` and `mymodule`. -/
def exampleFiles : List PyFile :=
  [Except.ok
      [ImportStmt.plainImport "requests" [],
       ImportStmt.plainImport "os" [],
       ImportStmt.plainImport "mymodule" []]]

/-- An environment identical to `bareEnv` except that the mapping table
holds the entry from import name `cv2` to package name `opencv-python`. -/
def cv2Env : Env :=
  { bareEnv with mappings := [("cv2", "opencv-python")] }

/-- A project with one file importing `cv2`. -/
def cv2Files : List PyFile :=
  [Except.ok [ImportStmt.plainImport "cv2" []]]

/-- A project with one file importing `MyLib` and `mylib`, for the
case-sensitivity of the project-basename exclusion. -/
def caseFiles : List PyFile :=
  [Except.ok
      [ImportStmt.plainImport "MyLib" [],
       ImportStmt.plainImport "mylib" []]]

/-- Membership in a pair set accumulated by `addImports`. -/
theorem mem_addImports (acc imps : List String) (m : String) :
    m ∈ addImports acc imps ↔ m ∈ acc ∨ m ∈ imps := by
  induction imps generalizing acc with
  | nil => simp [addImports]
  | cons x xs ih =>
    unfold addImports at ih ⊢
    rw [List.foldl_cons]
    by_cases hx : x ∈ acc
    · rw [if_pos hx, ih]
      constructor
      · rintro (h | h)
        · exact Or.inl h
        · exact Or.inr (List.mem_cons_of_mem x h)
      · rintro (h | h)
        · exact Or.inl h
        · rcases List.mem_cons.mp h with rfl | h
          · exact Or.inl hx
          · exact Or.inr h
    · rw [if_neg hx, ih]
      simp only [List.mem_append, List.mem_cons, List.mem_singleton]
      tauto

/-- Characterization of membership in the missing-package list: exactly the
collected import names that are neither internal, nor standard-library, nor
available, paired with their mapped package names. -/
theorem mem_missing_iff (env : Env) (pn : String) (files : List PyFile)
    (m p : String) :
    (m, p) ∈ missing_packages env pn files ↔
      m ∈ collect_all_imports files ∧
      m ∉ internal_modules pn ∧
      is_stdlib_module env m = false ∧
      env.available m = false ∧
      p = mapGet env.mappings m m := by
  simp only [missing_packages, List.mem_map, List.mem_filter, should_install,
    Bool.and_eq_true, Bool.not_eq_true', Bool.or_eq_false_iff,
    decide_eq_false_iff_not, Prod.mk.injEq]
  constructor
  · rintro ⟨a, ⟨ha, ⟨hint, hstd⟩, hav⟩, rfl, rfl⟩
    exact ⟨ha, hint, hstd, hav, rfl⟩
  · rintro ⟨ha, hint, hstd, hav, rfl⟩
    exact ⟨m, ⟨ha, ⟨hint, hstd⟩, hav⟩, rfl, rfl⟩

/-- `installCalls` distributes over concatenation of traces. -/
theorem installCalls_append (l₁ l₂ : List Msg) :
    installCalls (l₁ ++ l₂) = installCalls l₁ ++ installCalls l₂ := by
  simp [installCalls, List.filterMap_append]

/-- One installer invocation produces exactly one install call, whether it
succeeds or fails. -/
theorem installCalls_install_package (env : Env) (pkg : String) :
    installCalls (install_package env pkg) = [pkg] := by
  unfold install_package installCalls
  cases h : env.installOk pkg <;> simp [h]

/-- The install loop invokes the installer once per missing pair, with the
package component of the pair, in order. -/
theorem installCalls_loop (env : Env) (missing : List (String × String)) :
    installCalls
        (missing.foldr (fun mp acc => install_package env mp.snd ++ acc)
          [Msg.complete]) =
      missing.map Prod.snd := by
  induction missing with
  | nil => rfl
  | cons mp rest ih =>
    simp only [List.foldr_cons, installCalls_append,
      installCalls_install_package, ih, List.map_cons]
    rfl

/-- If no imports were collected, the missing list is empty. -/
theorem missing_of_collect_nil (env : Env) (pn : String) (files : List PyFile)
    (h : collect_all_imports files = []) :
    missing_packages env pn files = [] := by
  simp [missing_packages, h]

/-- The install calls of a whole run are exactly the package components of
the missing list. -/
theorem installCalls_run (env : Env) (pn : String) (files : List PyFile) :
    installCalls (install_missing_packages env pn files) =
      (missing_packages env pn files).map Prod.snd := by
  unfold install_missing_packages
  by_cases h : (collect_all_imports files).isEmpty
  · rw [if_pos h]
    rw [missing_of_collect_nil env pn files (by simpa using h)]
    rfl
  · rw [if_neg h]
    by_cases h₂ : (missing_packages env pn files).isEmpty
    · rw [if_pos h₂]
      rw [show missing_packages env pn files = [] from by simpa using h₂]
      rfl
    · rw [if_neg h₂]
      simp only [installCalls, List.filterMap_cons]
      exact installCalls_loop env (missing_packages env pn files)

/-- The `sys.path` loop of `is_stdlib_module` hits exactly when some search
path entry that is not a `site-packages` or `dist-packages` directory holds
an entry `path/m` or a file `path/m.py`. -/
theorem sysPath_hit_iff (env : Env) (m : String) :
    (env.sysPath.any
        (fun path =>
          if strEndsWith path "site-packages" || strEndsWith path "dist-packages" then
            false
          else
            env.pathExists (path ++ "/" ++ m) ||
              env.pathExists (path ++ "/" ++ m ++ ".py")) = true) ↔
      ∃ path ∈ env.sysPath,
        (strEndsWith path "site-packages" = false ∧
            strEndsWith path "dist-packages" = false) ∧
          (env.pathExists (path ++ "/" ++ m) = true ∨
            env.pathExists (path ++ "/" ++ m ++ ".py") = true) := by
  rw [List.any_eq_true]
  constructor
  · rintro ⟨path, hmem, hpred⟩
    refine ⟨path, hmem, ?_⟩
    by_cases h₃ :
        (strEndsWith path "site-packages" || strEndsWith path "dist-packages") = true
    · rw [if_pos h₃] at hpred
      cases hpred
    · rw [if_neg h₃] at hpred
      have h₄ := Bool.or_eq_false_iff.mp (Bool.eq_false_iff.mpr h₃)
      exact ⟨h₄, by simpa using hpred⟩
  · rintro ⟨path, hmem, ⟨h₁, h₂⟩, hex⟩
    refine ⟨path, hmem, ?_⟩
    rw [if_neg (by simp [h₁, h₂])]
    simpa using hex

/-- A name of the hardcoded list is classified standard-library in every
environment. -/
theorem is_stdlib_of_mem_list (env : Env) (m : String) (hm : m ∈ stdlib_modules) :
    is_stdlib_module env m = true := by
  unfold is_stdlib_module
  split
  · rfl
  · split
    · rfl
    · exact decide_eq_true hm

/-- The classifier only reads the `builtinModules`, `sysPath` and
`pathExists` fields, so it is unchanged after a run. -/
theorem is_stdlib_module_envAfter (env : Env) (pn : String) (files : List PyFile)
    (m : String) :
    is_stdlib_module (envAfter env pn files) m = is_stdlib_module env m := rfl

/-- The names returned by the scan of a file are exactly the top-level segments of
its import statements. -/
theorem mem_scan_imports (stmts : List ImportStmt) (m : String) :
    m ∈ scan_imports stmts ↔ ∃ s ∈ stmts, topLevel s = m := by
  have h : scan_imports stmts = addImports [] (stmts.map topLevel) := by
    unfold scan_imports addImports
    rw [List.foldl_map]
  rw [h, mem_addImports]
  simp [List.mem_map]

/-- C1: the internal-name exclusion list of the orchestrator is exactly the
module identifiers of the tool itself, `autopylot`, `AutoPylot`, `core`, `cli`,
plus the lowercased project directory basename; on the end-to-end example
(project `mymodule`, one file importing `requests`, `os`, `mymodule`, with
`requests` not installed) the missing set is exactly the pair
`(requests, requests)`, the installer is invoked exactly once with
`requests`, and `os` and `mymodule` are excluded. -/
theorem internal_exclusion_end_to_end :
    (∀ pn : String, internal_modules pn =
        ["autopylot", "AutoPylot", "core", "cli", strLower pn]) ∧
    missing_packages bareEnv "mymodule" exampleFiles = [("requests", "requests")] ∧
    installCalls (install_missing_packages bareEnv "mymodule" exampleFiles) =
      ["requests"] ∧
    "os" ∉ (missing_packages bareEnv "mymodule" exampleFiles).map Prod.fst ∧
    "mymodule" ∉ (missing_packages bareEnv "mymodule" exampleFiles).map Prod.fst :=
  ⟨fun _ => rfl, by decide, by decide, by decide, by decide⟩

/-- C2: the Import Scanner recognizes plain-import and from-import forms,
extracting exactly the top-level segment of each dotted module path; a file
containing exactly `import foo` and `from bar.baz import qux` yields
exactly the names `foo` and `bar`. -/
theorem scanner_top_level_segments :
    (∀ first rest, topLevel (ImportStmt.plainImport first rest) = first) ∧
    (∀ first rest names, topLevel (ImportStmt.fromImport first rest names) = first) ∧
    (∀ (stmts : List ImportStmt) (m : String),
        m ∈ scan_imports stmts ↔ ∃ s ∈ stmts, topLevel s = m) ∧
    scan_imports
        [ImportStmt.plainImport "foo" [],
         ImportStmt.fromImport "bar" ["baz"] ["qux"]] = ["foo", "bar"] :=
  ⟨fun _ _ => rfl, fun _ _ _ => rfl, mem_scan_imports, by decide⟩

/-- C3: the Standard-Library Classifier returns true exactly when the name
is a builtin-module identifier, or a directory or `.py` file of that name
exists on a `sys.path` entry that is not a `site-packages` or
`dist-packages` directory, or the name is in the hardcoded list; the
definition of `is_stdlib_module` checks these in that order and returns
false otherwise. -/
theorem stdlib_classifier_iff (env : Env) (m : String) :
    is_stdlib_module env m = true ↔
      m ∈ env.builtinModules ∨
        (∃ path ∈ env.sysPath,
            (strEndsWith path "site-packages" = false ∧
                strEndsWith path "dist-packages" = false) ∧
              (env.pathExists (path ++ "/" ++ m) = true ∨
                env.pathExists (path ++ "/" ++ m ++ ".py") = true)) ∨
        m ∈ stdlib_modules := by
  unfold is_stdlib_module
  split
  · next h => simp [h]
  · next h =>
    split
    · next h₂ =>
      simp only [true_iff]
      exact Or.inr (Or.inl ((sysPath_hit_iff env m).mp h₂))
    · next h₂ =>
      simp only [decide_eq_true_eq]
      constructor
      · exact fun hm => Or.inr (Or.inr hm)
      · rintro (hm | hm | hm)
        · exact absurd hm h
        · exact absurd ((sysPath_hit_iff env m).mpr hm) h₂
        · exact hm

/-- C4: a name of the hardcoded standard-library list is never placed in
the missing set, and — as long as no mapping-table entry maps some
other import onto it — the installer is never invoked with it, even in
environments where no package of that name is installed. -/
theorem stdlib_never_missing (env : Env) (pn : String) (files : List PyFile)
    (m : String) (hm : m ∈ stdlib_modules) :
    (∀ p, (m, p) ∉ missing_packages env pn files) ∧
    ((∀ kv ∈ env.mappings, kv.snd ≠ m) →
      m ∉ installCalls (install_missing_packages env pn files)) := by
  have hstd := is_stdlib_of_mem_list env m hm
  constructor
  · intro p hp
    have h := (mem_missing_iff env pn files m p).mp hp
    rw [hstd] at h
    exact absurd h.2.2.1 (by simp)
  · intro hmap hmem
    rw [installCalls_run] at hmem
    obtain ⟨⟨a, p⟩, hpair, hsnd⟩ := List.mem_map.mp hmem
    dsimp only at hsnd
    rw [hsnd] at hpair
    have h := (mem_missing_iff env pn files a m).mp hpair
    cases hfind : env.mappings.find? (fun q => q.fst == a) with
    | none =>
      have hid : mapGet env.mappings a a = a := by
        unfold mapGet
        rw [hfind]
      have : m = a := h.2.2.2.2.trans hid
      subst this
      rw [hstd] at h
      exact absurd h.2.2.1 (by simp)
    | some kv =>
      have hkv := List.mem_of_find?_eq_some hfind
      have hval : mapGet env.mappings a a = kv.snd := by
        unfold mapGet
        rw [hfind]
      exact hmap kv hkv (hval ▸ h.2.2.2.2).symm

/-- C5: the Name Mapper is pure and resolves an import name to the mapping
table entry when one is present and to the import name itself otherwise;
with the table mapping `cv2` to `opencv-python` and `cv2` missing, the
installer is invoked with `opencv-python`, not `cv2`. -/
theorem name_mapper_lookup_or_identity :
    (∀ (t : List (String × String)) (k dflt : String),
        (∀ kv ∈ t, kv.fst ≠ k) → mapGet t k dflt = dflt) ∧
    (∀ (t : List (String × String)) (k dflt : String) (kv : String × String),
        t.find? (fun q => q.fst == k) = some kv → mapGet t k dflt = kv.snd) ∧
    missing_packages cv2Env "proj" cv2Files = [("cv2", "opencv-python")] ∧
    installCalls (install_missing_packages cv2Env "proj" cv2Files) =
      ["opencv-python"] := by
  refine ⟨?_, ?_, by decide, by decide⟩
  · intro t k dflt hnone
    have hfind : t.find? (fun q => q.fst == k) = none :=
      List.find?_eq_none.mpr (fun kv hkv => by simpa using hnone kv hkv)
    unfold mapGet
    rw [hfind]
  · intro t k dflt kv hfind
    unfold mapGet
    rw [hfind]

/-- C6: a file whose scan raised does not abort the run: its error message
is reported, it contributes no import names, and the names collected from
every other file are exactly those of the run without it. -/
theorem scan_error_isolated (pre post : List PyFile) (e : String) :
    collect_all_imports (pre ++ Except.error e :: post) =
      collect_all_imports (pre ++ post) ∧
    scanErrors (pre ++ Except.error e :: post) =
      scanErrors pre ++ e :: scanErrors post := by
  constructor
  · unfold collect_all_imports
    rw [List.foldl_append, List.foldl_append, List.foldl_cons]
  · unfold scanErrors
    rw [List.filterMap_append, List.filterMap_cons]

/-- C7: every pair of the missing set draws its import name from the
collected project-wide import set with internal names, standard-library
names and already-available names removed. -/
theorem missing_subset_invariant (env : Env) (pn : String) (files : List PyFile)
    (m p : String) (h : (m, p) ∈ missing_packages env pn files) :
    m ∈ collect_all_imports files ∧
    m ∉ internal_modules pn ∧
    is_stdlib_module env m = false ∧
    env.available m = false := by
  have hh := (mem_missing_iff env pn files m p).mp h
  exact ⟨hh.1, hh.2.1, hh.2.2.1, hh.2.2.2.1⟩

/-- The trace of the install loop is never empty: it at least ends with the
completion message. -/
theorem loop_ne_nil (env : Env) (missing : List (String × String)) :
    missing.foldr (fun mp acc => install_package env mp.snd ++ acc)
        [Msg.complete] ≠ [] := by
  cases missing with
  | nil => simp
  | cons mp rest => simp [List.foldr_cons, install_package]

/-- The trace of the install loop always ends with the completion message,
whatever the per-package outcomes. -/
theorem loop_getLast (env : Env) (missing : List (String × String)) :
    (missing.foldr (fun mp acc => install_package env mp.snd ++ acc)
        [Msg.complete]).getLast? = some Msg.complete := by
  induction missing with
  | nil => rfl
  | cons mp rest ih =>
    rw [List.foldr_cons,
      List.getLast?_append_of_ne_nil _ (loop_ne_nil env rest)]
    exact ih

/-- C8: when the missing set is empty the run reports success (either
no imports found, or everything already installed) and never invokes the
installer; when it is nonempty the installer is invoked exactly once per
missing pair with the package name of the pair and the run still ends with the
summary completion message — for every environment, hence regardless of
which individual installations fail. -/
theorem completion_behavior (env : Env) (pn : String) (files : List PyFile) :
    (missing_packages env pn files = [] →
      installCalls (install_missing_packages env pn files) = [] ∧
      (Msg.noImports ∈ install_missing_packages env pn files ∨
        Msg.allInstalled ∈ install_missing_packages env pn files)) ∧
    (missing_packages env pn files ≠ [] →
      installCalls (install_missing_packages env pn files) =
        (missing_packages env pn files).map Prod.snd ∧
      (install_missing_packages env pn files).getLast? = some Msg.complete) := by
  constructor
  · intro h
    refine ⟨by rw [installCalls_run, h]; rfl, ?_⟩
    unfold install_missing_packages
    by_cases hc : (collect_all_imports files).isEmpty
    · rw [if_pos hc]
      exact Or.inl (by simp)
    · rw [if_neg hc, if_pos (by simp [h])]
      exact Or.inr (by simp)
  · intro h
    refine ⟨by rw [installCalls_run], ?_⟩
    unfold install_missing_packages
    have hc : ¬ (collect_all_imports files).isEmpty = true := by
      intro hc
      exact h (missing_of_collect_nil env pn files (by simpa using hc))
    rw [if_neg hc, if_neg (by simpa using h)]
    calc (Msg.foundImports (collect_all_imports files).length ::
            Msg.foundMissing (missing_packages env pn files).length ::
              (missing_packages env pn files).foldr
                (fun mp acc => install_package env mp.snd ++ acc)
                [Msg.complete]).getLast?
        = ((missing_packages env pn files).foldr
            (fun mp acc => install_package env mp.snd ++ acc)
            [Msg.complete]).getLast? :=
          List.getLast?_append_of_ne_nil
            [Msg.foundImports (collect_all_imports files).length,
             Msg.foundMissing (missing_packages env pn files).length]
            (loop_ne_nil env (missing_packages env pn files))
      _ = some Msg.complete := loop_getLast env (missing_packages env pn files)

/-- C9: a second run in the environment left by a first run whose
installations all succeeded (`envAfter`: every import name of the first
set of the first run became available, nothing else changed) finds zero
missing packages and performs zero installations. -/
theorem rerun_idempotent (env : Env) (pn : String) (files : List PyFile) :
    missing_packages (envAfter env pn files) pn files = [] ∧
    installCalls (install_missing_packages (envAfter env pn files) pn files) =
      [] := by
  have hmiss : missing_packages (envAfter env pn files) pn files = [] := by
    rw [List.eq_nil_iff_forall_not_mem]
    rintro ⟨m, p⟩ hmp
    have h := (mem_missing_iff (envAfter env pn files) pn files m p).mp hmp
    have hav : (env.available m ||
        (missing_packages env pn files).any (fun mp => mp.fst == m)) = false :=
      h.2.2.2.1
    have h₁ := (Bool.or_eq_false_iff.mp hav).1
    have h₂ := (Bool.or_eq_false_iff.mp hav).2
    have hstd : is_stdlib_module env m = false := h.2.2.1
    have hm₁ : (m, mapGet env.mappings m m) ∈ missing_packages env pn files :=
      (mem_missing_iff env pn files m _).mpr ⟨h.1, h.2.1, hstd, h₁, rfl⟩
    have hany : (missing_packages env pn files).any (fun mp => mp.fst == m) =
        true :=
      List.any_eq_true.mpr ⟨(m, mapGet env.mappings m m), hm₁, beq_self_eq_true m⟩
    rw [h₂] at hany
    cases hany
  refine ⟨hmiss, ?_⟩
  rw [installCalls_run, hmiss]
  rfl

/-- C10: an import named exactly `autopylot`, `AutoPylot`, `core` or `cli`
is excluded from the missing set in every project and environment, even
when nothing of that name is installed; and the project-basename exclusion
matches only the lowercased basename, case-sensitively: with project
`MyLib`, the import `MyLib` is reported missing while `mylib` is
excluded. -/
theorem fixed_internal_names_excluded (env : Env) (pn : String)
    (files : List PyFile) (m : String)
    (hm : m ∈ (["autopylot", "AutoPylot", "core", "cli"] : List String)) :
    (∀ p, (m, p) ∉ missing_packages env pn files) ∧
    missing_packages bareEnv "MyLib" caseFiles = [("MyLib", "MyLib")] := by
  refine ⟨?_, by decide⟩
  intro p hp
  have h := (mem_missing_iff env pn files m p).mp hp
  apply h.2.1
  simp only [internal_modules, List.mem_cons, List.mem_singleton,
    List.not_mem_nil] at hm ⊢
  tauto

/-- Witness for C4 at a concrete input: `os` is in the hardcoded list, the
example environment has an empty mapping table, and indeed `os` is neither
missing nor installed there. -/
theorem stdlib_never_missing_witness :
    ("os", "os") ∉ missing_packages bareEnv "mymodule" exampleFiles ∧
    "os" ∉ installCalls (install_missing_packages bareEnv "mymodule" exampleFiles) :=
  ⟨(stdlib_never_missing bareEnv "mymodule" exampleFiles "os" (by decide)).1 "os",
   (stdlib_never_missing bareEnv "mymodule" exampleFiles "os" (by decide)).2
     (by decide)⟩

/-- Witness for C5 at concrete inputs: a key absent from the table resolves
to itself, and `cv2` resolves to the mapped entry. -/
theorem name_mapper_witness :
    mapGet [("cv2", "opencv-python")] "requests" "requests" = "requests" ∧
    mapGet [("cv2", "opencv-python")] "cv2" "cv2" = "opencv-python" :=
  ⟨name_mapper_lookup_or_identity.1 [("cv2", "opencv-python")] "requests"
      "requests" (by decide),
   name_mapper_lookup_or_identity.2.1 [("cv2", "opencv-python")] "cv2" "cv2"
      ("cv2", "opencv-python") (by decide)⟩

/-- Witness for C7 at a concrete input: the pair `(requests, requests)` of
the end-to-end example satisfies every conjunct of the invariant. -/
theorem missing_subset_invariant_witness :
    "requests" ∈ collect_all_imports exampleFiles ∧
    "requests" ∉ internal_modules "mymodule" ∧
    is_stdlib_module bareEnv "requests" = false ∧
    bareEnv.available "requests" = false :=
  missing_subset_invariant bareEnv "mymodule" exampleFiles "requests" "requests"
    (by decide)

/-- Witness for C8 at concrete inputs: the nonempty branch on the
end-to-end example and the empty branch on a project with no files. -/
theorem completion_behavior_witness :
    (installCalls (install_missing_packages bareEnv "mymodule" exampleFiles) =
        (missing_packages bareEnv "mymodule" exampleFiles).map Prod.snd ∧
      (install_missing_packages bareEnv "mymodule" exampleFiles).getLast? =
        some Msg.complete) ∧
    (installCalls (install_missing_packages bareEnv "proj" []) = [] ∧
      (Msg.noImports ∈ install_missing_packages bareEnv "proj" [] ∨
        Msg.allInstalled ∈ install_missing_packages bareEnv "proj" [])) :=
  ⟨(completion_behavior bareEnv "mymodule" exampleFiles).2 (by decide),
   (completion_behavior bareEnv "proj" []).1 (by decide)⟩

/-- Witness for C10 at a concrete input: the internal module name `core`
is excluded in the end-to-end example environment. -/
theorem fixed_internal_names_excluded_witness :
    ("core", "core") ∉ missing_packages bareEnv "mymodule" exampleFiles :=
  (fixed_internal_names_excluded bareEnv "mymodule" exampleFiles "core"
      (by decide)).1 "core"

end AutoPylot
